import Mathlib

/-!
Shallow embedding of the decoration-layer subsystem of the `vscode-npm-outdated`
extension (source file: `DocumentDecoration.ts`, together with the `Theme.ts`
constant tables).  The TypeScript classes `DocumentDecorationManager`,
`DocumentDecorationLayer`, `DocumentDecoration` and `Message` are embedded as
Lean structures; the mutating methods become state-passing functions.

Modelling conventions:
- A JavaScript sparse array (`DocumentDecorationLayer[]`) is a
  `List (Option DocumentDecorationLayer)`: `none` entries are the holes that
  `forEach` skips.
- The `lines` record (`Record<number, DecorationOptions>`) is a function
  `Nat → Option DecorationOptions`.
- `window.createTextEditorDecorationType({})` hands out fresh opaque handles;
  the manager carries a `nextType : Nat` counter modelling the allocator,
  so handle identity is observable.
- `l10n.t` looks up a translation keyed by the literal English string; in the
  model it is the identity on that string.
- The debounced `render` callback repaints editors from the layer state and
  stores nothing; claims here are about layer state, so it is not modelled.
-/

/-- A themable style record (`ThemableDecorationAttachmentRenderOptions`,
restricted to the keys the source actually sets: `color` and `margin`). -/
structure ThemableStyle where
  color : Option String := none
  margin : Option String := none
  deriving Repr, DecidableEq

/-- Object-spread `\x7b...a, ...b\x7d`: a key present in `b` overrides `a`. -/
def styleSpread (a b : ThemableStyle) : ThemableStyle :=
  { color := match b.color with
      | some c => some c
      | none => a.color
    margin := match b.margin with
      | some s => some s
      | none => a.margin }

/-- Class `Message`: a text plus optional default-theme and dark-theme styles. -/
structure Message where
  message : String
  styleDefault : Option ThemableStyle := none
  styleDark : Option ThemableStyle := none
  deriving Repr, DecidableEq

-- The icon table from `Theme.ts`.
namespace Icons

def CHECKING : String := "🗘"

def PENDING : String := "⭳"

def UPDATABLE : String := "⚠"

end Icons

-- The margin table from `Theme.ts`.
namespace Margins

def MARGIN_INITIAL : ThemableStyle := { margin := some "0 0 0 2ch" }

def MARGIN_THEN : ThemableStyle := { margin := some "0 0 0 1ch" }

end Margins

-- The light-theme color table from `Theme.ts`.
namespace ThemeLight

def DEFAULT : ThemableStyle := { color := some "silver" }

def ICON_AVAILABLE : ThemableStyle := { color := some "gray" }

def ICON_UPDATABLE : ThemableStyle := { color := some "gold" }

def LABEL_FORMALIZATION : ThemableStyle := { color := some "silver" }

def LABEL_MAJOR : ThemableStyle := { color := some "#A31515" }

def LABEL_PENDING : ThemableStyle := { color := some "gray" }

def LABEL_PRERELEASE : ThemableStyle := { color := some "#0451A5" }

def LABEL_UPDATABLE : ThemableStyle := { color := some "gray" }

def LABEL_VERSION : ThemableStyle := { color := some "#001080" }

end ThemeLight

-- The dark-theme color table from `Theme.ts`.
namespace ThemeDark

def DEFAULT : ThemableStyle := { color := some "gray" }

def ICON_AVAILABLE : ThemableStyle := { color := some "silver" }

def ICON_UPDATABLE : ThemableStyle := { color := some "yellow" }

def LABEL_FORMALIZATION : ThemableStyle := { color := some "gray" }

def LABEL_MAJOR : ThemableStyle := { color := some "#F97583" }

def LABEL_PENDING : ThemableStyle := { color := some "silver" }

def LABEL_PRERELEASE : ThemableStyle := { color := some "#B392F0" }

def LABEL_UPDATABLE : ThemableStyle := { color := some "silver" }

def LABEL_VERSION : ThemableStyle := { color := some "#9CDCFE" }

end ThemeDark

/-- The function `l10n.t`: translation lookup keyed by the literal English string; the
model is the identity on that literal. -/
def l10nT (s : String) : String := s

/-- The `DecorationOptions` object built inside `setLine`: a zero-width range
at character 4096 of the line, the rendered "after" attachment (content text
plus the merged default-theme style) and the merged dark-theme style. -/
structure DecorationOptions where
  startLine : Nat
  startChar : Nat
  endLine : Nat
  endChar : Nat
  afterContentText : String
  afterStyle : ThemableStyle
  darkAfterStyle : ThemableStyle
  deriving Repr, DecidableEq

/-- The decoration object stored by `setLine` for `message` at slot
`messageIndex` of `line`: spreads `ThemeLight.DEFAULT`, the margin chosen by
the slot (initial margin for slot 0), and the message's own default style into
the "after" attachment; spreads `ThemeDark.DEFAULT` and the message's dark
style into the dark "after" attachment. -/
def mkDecorationOptions (line messageIndex : Nat) (msg : Message) : DecorationOptions :=
  { startLine := line
    startChar := 4096
    endLine := line
    endChar := 4096
    afterContentText := msg.message
    afterStyle :=
      styleSpread
        (styleSpread ThemeLight.DEFAULT
          (if messageIndex = 0 then Margins.MARGIN_INITIAL else Margins.MARGIN_THEN))
        (msg.styleDefault.getD {})
    darkAfterStyle := styleSpread ThemeDark.DEFAULT (msg.styleDark.getD {}) }

/-- Class `DocumentDecorationLayer`: a line map plus the decoration-type
handle obtained from `window.createTextEditorDecorationType(\x7b\x7d)`. -/
structure DocumentDecorationLayer where
  lines : Nat → Option DecorationOptions
  type : Nat

/-- Class `DocumentDecorationManager` (per-document part): the sparse layer
array together with the fresh-handle counter modelling
`window.createTextEditorDecorationType`. -/
structure DocumentDecorationManager where
  layers : List (Option DocumentDecorationLayer)
  nextType : Nat

/-- JavaScript sparse-array assignment `xs[i] = v`: pads with holes up to
index `i` when the array is shorter. -/
def setIdx {α : Type} : List (Option α) → Nat → α → List (Option α)
  | xs, 0, v => some v :: xs.tail
  | xs, i + 1, v => xs.headD none :: setIdx xs.tail i v

/-- JavaScript sparse-array read `xs[i]`: `none` for a hole or an index out of
range. -/
def getIdx {α : Type} : List (Option α) → Nat → Option α
  | [], _ => none
  | x :: _, 0 => x
  | _ :: rest, i + 1 => getIdx rest i

namespace DocumentDecorationManager

/-- The manager a fresh document starts from: no layers. -/
def empty : DocumentDecorationManager := { layers := [], nextType := 0 }

/-- JavaScript array read `this.layers[i]` (`none` for a hole or an index out
of range). -/
def layerAt (m : DocumentDecorationManager) (i : Nat) : Option DocumentDecorationLayer :=
  getIdx m.layers i

/-- The decoration stored in layer `j` for line `n`, if any. -/
def linesAt (m : DocumentDecorationManager) (j n : Nat) : Option DecorationOptions :=
  (m.layerAt j).bind fun l => l.lines n

/-- Method `getLayer`: if `layers[i]` is undefined, store a fresh empty layer there
(with a fresh decoration-type handle); return `layers[i]`. -/
def getLayer (m : DocumentDecorationManager) (i : Nat) :
    DocumentDecorationLayer × DocumentDecorationManager :=
  match m.layerAt i with
  | some l => (l, m)
  | none =>
    let l : DocumentDecorationLayer := { lines := fun _ => none, type := m.nextType }
    (l, { layers := setIdx m.layers i l, nextType := m.nextType + 1 })

/-- Method `flushLayers`: `layers.forEach((layer) => (layer.lines = []))`. -/
def flushLayers (m : DocumentDecorationManager) : DocumentDecorationManager :=
  { m with
    layers := m.layers.map (Option.map fun l => { l with lines := fun _ => none }) }

/-- The body of `messages.forEach` in `setLine`: fetch (or create) the layer
for this message index and store the decoration object for `line` into it. -/
def storeMessage (m : DocumentDecorationManager) (line messageIndex : Nat)
    (msg : Message) : DocumentDecorationManager :=
  let p := m.getLayer messageIndex
  let layer := { p.1 with
    lines := fun n =>
      if n = line then some (mkDecorationOptions line messageIndex msg) else p.1.lines n }
  { p.2 with layers := setIdx p.2.layers messageIndex layer }

/-- The loop `messages.forEach((message, messageIndex) => ...)`, iterating from index
`idx`. -/
def storeMessages (m : DocumentDecorationManager) (line : Nat) :
    List Message → Nat → DocumentDecorationManager
  | [], _ => m
  | msg :: rest, idx => storeMessages (m.storeMessage line idx msg) line rest (idx + 1)

/-- Method `DocumentDecoration.clearLine` acting on the document's manager:
`layers.forEach((decoration) => delete decoration.lines[line])`. -/
def clearLine (m : DocumentDecorationManager) (line : Nat) : DocumentDecorationManager :=
  { m with
    layers := m.layers.map (Option.map fun l =>
      { l with lines := fun n => if n = line then none else l.lines n }) }

end DocumentDecorationManager

/-- Class `DocumentDecoration` (the part of its state the claims are about):
the `flushed` flag guarding the flush-on-first-`setLine`.  The document handle
and captured editors only feed `render`, which is not modelled. -/
structure DocumentDecoration where
  flushed : Bool

namespace DocumentDecoration

/-- Method `setLine`: on the first call (while `flushed` is false) set the flag and
flush every layer of the document's manager, then store each message of the
ordered list into the layer matching its index, keyed by `line`. -/
def setLine (d : DocumentDecoration) (m : DocumentDecorationManager) (line : Nat)
    (messages : List Message) : DocumentDecoration × DocumentDecorationManager :=
  let m1 := if d.flushed then m else m.flushLayers
  ({ flushed := true }, m1.storeMessages line messages 0)

/-- Method `clearLine`: delete the line's entry from every layer of the manager. -/
def clearLine (_d : DocumentDecoration) (m : DocumentDecorationManager) (line : Nat) :
    DocumentDecorationManager :=
  m.clearLine line

/-- Method `setCheckingMessage`: a single checking-icon message at slot 0. -/
def setCheckingMessage (d : DocumentDecoration) (m : DocumentDecorationManager)
    (line : Nat) : DocumentDecoration × DocumentDecorationManager :=
  d.setLine m line [{ message := Icons.CHECKING }]

end DocumentDecoration

/-- One component of the characters of a version string: everything before the
first build-metadata separator `+`. -/
def takeUntilPlus : List Char → List Char
  | [] => []
  | c :: rest => if c = '+' then [] else c :: takeUntilPlus rest

/-- Whether the character list contains a `-` followed by at least one more
character (a non-empty pre-release tag). -/
def hasDashTag : List Char → Bool
  | [] => false
  | c :: rest => if c = '-' then !rest.isEmpty else hasDashTag rest

/-- Model of the external `semver` library's `prerelease(v)` test as used by
`setUpdateMessage` (truthy iff the version string carries a non-empty
pre-release tag before any build metadata). -/
def semverPrerelease (v : String) : Bool :=
  hasDashTag (takeUntilPlus v.toList)

/-- JavaScript truthiness of an optional version string: `undefined`/`null`
and the empty string are falsy. -/
def strFalsy : Option String → Bool
  | none => true
  | some s => s = ""

/-- The `packageRelated` collaborator of a `PackageRelatedDiagnostic`, reduced
to the answers of the five asynchronous queries `setUpdateMessage` makes:
`getVersionLatest`, `getVersionInstalled`, `isVersionMaxed`,
`isVersionLatestAlreadyInstalled` and `isVersionMajorUpdate`. -/
structure PackageRelated where
  versionLatest : Option String
  versionInstalled : Option String
  versionMaxed : Bool
  versionLatestAlreadyInstalled : Bool
  versionMajorUpdate : Bool
  deriving Repr, DecidableEq

/-- The qualifier messages pushed onto `updateDetails` after its three fixed
heads, in source order: the pending/formalization alternative, then the
major-update warning, then the pre-release marker. -/
def updateQualifiers (p : PackageRelated) (versionLatest : String) : List Message :=
  (if strFalsy p.versionInstalled then
    [{ message := "(" ++ l10nT "install pending" ++ ")"
       styleDefault := some ThemeLight.LABEL_PENDING
       styleDark := some ThemeDark.LABEL_PENDING }]
   else if p.versionLatestAlreadyInstalled then
    [{ message := "(" ++ l10nT "already installed, just formalization" ++ ")"
       styleDefault := some ThemeLight.LABEL_FORMALIZATION
       styleDark := some ThemeDark.LABEL_FORMALIZATION }]
   else [])
  ++ (if p.versionMajorUpdate then
       [{ message := "(" ++ l10nT "attention: major update!" ++ ")"
          styleDefault := some ThemeLight.LABEL_MAJOR
          styleDark := some ThemeDark.LABEL_MAJOR }]
      else [])
  ++ (if semverPrerelease versionLatest then
       [{ message := "<" ++ l10nT "pre-release" ++ ">"
          styleDefault := some ThemeLight.LABEL_PRERELEASE
          styleDark := some ThemeDark.LABEL_PRERELEASE }]
      else [])

/-- The list of messages `setUpdateMessage` passes to `setLine`, following the
source control flow: `none` on the early return when `getVersionLatest` is
falsy; the two-message pending notice when there is no installed version and
the version is maxed; otherwise the `updateDetails` list with its three fixed
heads and the qualifiers pushed in source order. -/
def updateMessages (p : PackageRelated) : Option (List Message) :=
  match p.versionLatest with
  | none => none
  | some versionLatest =>
    if versionLatest = "" then none
    else if strFalsy p.versionInstalled && p.versionMaxed then
      some
        [{ message := Icons.PENDING
           styleDefault := some ThemeLight.ICON_AVAILABLE
           styleDark := some ThemeDark.ICON_AVAILABLE },
         { message := l10nT "Install pending" }]
    else
      some
        ([{ message := Icons.UPDATABLE
            styleDefault := some ThemeLight.ICON_UPDATABLE
            styleDark := some ThemeDark.ICON_UPDATABLE },
          { message :=
              if strFalsy p.versionInstalled then l10nT "Latest version:"
              else l10nT "Update available:"
            styleDefault := some ThemeLight.LABEL_UPDATABLE
            styleDark := some ThemeDark.LABEL_UPDATABLE },
          { message := versionLatest
            styleDefault := some ThemeLight.LABEL_VERSION
            styleDark := some ThemeDark.LABEL_VERSION }]
         ++ updateQualifiers p versionLatest)

namespace DocumentDecoration

/-- Method `setUpdateMessage`: return untouched on a falsy latest version,
otherwise hand the computed message list to `setLine`. -/
def setUpdateMessage (d : DocumentDecoration) (m : DocumentDecorationManager)
    (line : Nat) (p : PackageRelated) : DocumentDecoration × DocumentDecorationManager :=
  match updateMessages p with
  | none => (d, m)
  | some messages => d.setLine m line messages

end DocumentDecoration

/-- A visible text editor, reduced to an identity and the document it shows. -/
structure Editor where
  id : Nat
  document : Nat
  deriving Repr, DecidableEq

/-- The host-side state the static methods of `DocumentDecorationManager`
touch: the per-document state table (the `documents` WeakMap, with documents
as `Nat` identities), `window.visibleTextEditors`, and the decorations painted
per editor per decoration-type handle (written by `editor.setDecorations`). -/
structure HostState where
  documents : Nat → Option DocumentDecorationManager
  visibleTextEditors : List Editor
  painted : Nat → Nat → List DecorationOptions

namespace HostState

/-- Static method `fromDocument`: create the manager on first use, then return
the stored one. -/
def fromDocument (h : HostState) (doc : Nat) : DocumentDecorationManager × HostState :=
  match h.documents doc with
  | some m => (m, h)
  | none =>
    let m := DocumentDecorationManager.empty
    (m, { h with documents := fun d => if d = doc then some m else h.documents d })

/-- One step of the inner loop of `flushDocument`: for a visible editor showing
the document, `editor.setDecorations(layer.type, [])`. -/
def clearStep (doc ty : Nat) (acc : HostState) (ed : Editor) : HostState :=
  if ed.document = doc then
    { acc with
      painted := fun e t => if e = ed.id ∧ t = ty then [] else acc.painted e t }
  else acc

/-- One step of the outer loop of `flushDocument`: for an existing layer, run
the inner loop over `window.visibleTextEditors` with that layer's type. -/
def clearLayersStep (doc : Nat) (acc : HostState) :
    Option DocumentDecorationLayer → HostState
  | some layer => acc.visibleTextEditors.foldl (clearStep doc layer.type) acc
  | none => acc

/-- Static method `flushDocument`: for every layer of the document's manager,
clear that layer's painted decorations in every visible editor showing the
document; then delete the document's entry from the state table. -/
def flushDocument (h : HostState) (doc : Nat) : HostState :=
  let p := h.fromDocument doc
  let h1 := p.1.layers.foldl (clearLayersStep doc) p.2
  { h1 with documents := fun d => if d = doc then none else h1.documents d }

end HostState

theorem getIdx_setIdx {α : Type} (i : Nat) (xs : List (Option α)) (v : α) (j : Nat) :
    getIdx (setIdx xs i v) j = if j = i then some v else getIdx xs j := by
  induction i generalizing xs j with
  | zero =>
    cases j with
    | zero => simp [setIdx, getIdx]
    | succ k => cases xs <;> simp [setIdx, getIdx]
  | succ n ih =>
    cases j with
    | zero => cases xs <;> simp [setIdx, getIdx]
    | succ k =>
      cases xs with
      | nil => simpa [setIdx, getIdx] using ih [] k
      | cons x rest => simpa [setIdx, getIdx] using ih rest k

theorem getIdx_map {α β : Type} (f : α → β) (xs : List (Option α)) (j : Nat) :
    getIdx (xs.map (Option.map f)) j = (getIdx xs j).map f := by
  induction xs generalizing j with
  | nil => simp [getIdx]
  | cons x rest ih =>
    cases j with
    | zero => simp [getIdx]
    | succ k => simpa [getIdx] using ih k

theorem getIdx_mem {α : Type} (xs : List (Option α)) (i : Nat) (v : α)
    (h : getIdx xs i = some v) : some v ∈ xs := by
  induction xs generalizing i with
  | nil => simp [getIdx] at h
  | cons x rest ih =>
    cases i with
    | zero => exact h ▸ List.mem_cons_self x rest
    | succ k => exact List.mem_cons_of_mem x (ih k h)

namespace DocumentDecorationManager

theorem layerAt_flushLayers (m : DocumentDecorationManager) (i : Nat) :
    m.flushLayers.layerAt i =
      (m.layerAt i).map fun l => { l with lines := fun _ => none } := by
  simp [flushLayers, layerAt, getIdx_map]

theorem linesAt_flushLayers (m : DocumentDecorationManager) (j n : Nat) :
    m.flushLayers.linesAt j n = none := by
  unfold linesAt
  rw [layerAt_flushLayers]
  cases m.layerAt j <;> simp

theorem linesAt_clearLine (m : DocumentDecorationManager) (line j n : Nat) :
    (m.clearLine line).linesAt j n = if n = line then none else m.linesAt j n := by
  unfold linesAt clearLine layerAt
  simp only [getIdx_map]
  cases getIdx m.layers j <;> by_cases h : n = line <;> simp [h]

theorem getLayer_known (m : DocumentDecorationManager) (i : Nat)
    (l0 : DocumentDecorationLayer) (h : m.layerAt i = some l0) :
    m.getLayer i = (l0, m) := by
  unfold getLayer
  rw [h]

theorem getLayer_fresh (m : DocumentDecorationManager) (i : Nat)
    (h : m.layerAt i = none) :
    m.getLayer i =
      ({ lines := fun _ => none, type := m.nextType },
       { layers := setIdx m.layers i { lines := fun _ => none, type := m.nextType },
         nextType := m.nextType + 1 }) := by
  unfold getLayer
  rw [h]

theorem getLayer_layerAt_self (m : DocumentDecorationManager) (i : Nat) :
    (m.getLayer i).2.layerAt i = some (m.getLayer i).1 := by
  cases h : m.layerAt i with
  | some l => rw [getLayer_known m i l h]; exact h
  | none => rw [getLayer_fresh m i h]; simp [layerAt, getIdx_setIdx]

theorem getLayer_layerAt_ne (m : DocumentDecorationManager) (i j : Nat) (h : j ≠ i) :
    (m.getLayer i).2.layerAt j = m.layerAt j := by
  cases hm : m.layerAt i with
  | some l => rw [getLayer_known m i l hm]
  | none => rw [getLayer_fresh m i hm]; simp [layerAt, getIdx_setIdx, h]

theorem linesAt_storeMessage (m : DocumentDecorationManager) (line idx : Nat)
    (msg : Message) (j n : Nat) :
    (m.storeMessage line idx msg).linesAt j n =
      if j = idx ∧ n = line then some (mkDecorationOptions line idx msg)
      else m.linesAt j n := by
  cases hm : m.layerAt idx with
  | some l =>
    have hm' : getIdx m.layers idx = some l := hm
    simp only [storeMessage, getLayer_known m idx l hm, linesAt, layerAt, getIdx_setIdx]
    by_cases hj : j = idx
    · subst hj
      by_cases hn : n = line <;> simp [hn, hm']
    · simp [hj]
  | none =>
    have hm' : getIdx m.layers idx = none := hm
    simp only [storeMessage, getLayer_fresh m idx hm, linesAt, layerAt, getIdx_setIdx]
    by_cases hj : j = idx
    · subst hj
      by_cases hn : n = line <;> simp [hn, hm']
    · simp [hj, hm']

end DocumentDecorationManager

namespace DocumentDecorationManager

theorem linesAt_storeMessages_ne_line (m : DocumentDecorationManager) (line : Nat)
    (msgs : List Message) (idx j n : Nat) (h : n ≠ line) :
    (m.storeMessages line msgs idx).linesAt j n = m.linesAt j n := by
  induction msgs generalizing m idx with
  | nil => rfl
  | cons msg rest ih =>
    simp only [storeMessages]
    rw [ih, linesAt_storeMessage]
    simp [h]

theorem linesAt_storeMessages_high (m : DocumentDecorationManager) (line : Nat)
    (msgs : List Message) (idx j n : Nat) (h : j < idx ∨ idx + msgs.length ≤ j) :
    (m.storeMessages line msgs idx).linesAt j n = m.linesAt j n := by
  induction msgs generalizing m idx with
  | nil => rfl
  | cons msg rest ih =>
    have hj : ¬(j = idx ∧ n = line) := by
      rintro ⟨rfl, -⟩
      simp only [List.length_cons] at h
      omega
    simp only [storeMessages]
    rw [ih _ (idx + 1) (by simp only [List.length_cons] at h; omega), linesAt_storeMessage]
    simp [hj]

theorem linesAt_storeMessages_get (m : DocumentDecorationManager) (line : Nat)
    (msgs : List Message) (idx k : Nat) (h : k < msgs.length) :
    (m.storeMessages line msgs idx).linesAt (idx + k) line =
      msgs[k]?.map (mkDecorationOptions line (idx + k)) := by
  induction msgs generalizing m idx k with
  | nil => simp at h
  | cons msg rest ih =>
    cases k with
    | zero =>
      simp only [storeMessages]
      rw [linesAt_storeMessages_high _ _ _ _ _ _ (Or.inl (by omega)),
        linesAt_storeMessage]
      simp
    | succ k' =>
      simp only [storeMessages]
      have harith : idx + (k' + 1) = (idx + 1) + k' := by omega
      rw [harith, ih _ (idx + 1) k' (by simp only [List.length_cons] at h; omega)]
      simp

end DocumentDecorationManager

namespace HostState

theorem clearStep_visibleTextEditors (doc ty : Nat) (acc : HostState) (ed : Editor) :
    (clearStep doc ty acc ed).visibleTextEditors = acc.visibleTextEditors := by
  unfold clearStep
  split <;> rfl

theorem clearStep_documents (doc ty : Nat) (acc : HostState) (ed : Editor) :
    (clearStep doc ty acc ed).documents = acc.documents := by
  unfold clearStep
  split <;> rfl

theorem clearStep_painted_nil (doc ty : Nat) (acc : HostState) (ed : Editor)
    (e t : Nat) (h : acc.painted e t = []) :
    (clearStep doc ty acc ed).painted e t = [] := by
  unfold clearStep
  split
  · dsimp only
    split
    · rfl
    · exact h
  · exact h

theorem foldl_clearStep_visibleTextEditors (doc ty : Nat) (xs : List Editor)
    (acc : HostState) :
    (xs.foldl (clearStep doc ty) acc).visibleTextEditors = acc.visibleTextEditors := by
  induction xs generalizing acc with
  | nil => rfl
  | cons x rest ih => rw [List.foldl_cons, ih, clearStep_visibleTextEditors]

theorem foldl_clearStep_documents (doc ty : Nat) (xs : List Editor) (acc : HostState) :
    (xs.foldl (clearStep doc ty) acc).documents = acc.documents := by
  induction xs generalizing acc with
  | nil => rfl
  | cons x rest ih => rw [List.foldl_cons, ih, clearStep_documents]

theorem foldl_clearStep_painted_nil (doc ty : Nat) (xs : List Editor) (acc : HostState)
    (e t : Nat) (h : acc.painted e t = []) :
    (xs.foldl (clearStep doc ty) acc).painted e t = [] := by
  induction xs generalizing acc with
  | nil => exact h
  | cons x rest ih => exact ih _ (clearStep_painted_nil doc ty acc x e t h)

theorem foldl_clearStep_mem (doc ty : Nat) (xs : List Editor) (acc : HostState)
    (ed : Editor) (hmem : ed ∈ xs) (hdoc : ed.document = doc) :
    (xs.foldl (clearStep doc ty) acc).painted ed.id ty = [] := by
  induction xs generalizing acc with
  | nil => cases hmem
  | cons x rest ih =>
    rcases List.mem_cons.mp hmem with heq | hmem'
    · subst heq
      rw [List.foldl_cons]
      refine foldl_clearStep_painted_nil doc ty rest _ ed.id ty ?_
      unfold clearStep
      rw [if_pos hdoc]
      simp
    · exact ih _ hmem'

theorem clearLayersStep_visibleTextEditors (doc : Nat) (acc : HostState)
    (ol : Option DocumentDecorationLayer) :
    (clearLayersStep doc acc ol).visibleTextEditors = acc.visibleTextEditors := by
  cases ol with
  | none => rfl
  | some layer => exact foldl_clearStep_visibleTextEditors doc layer.type _ acc

theorem clearLayersStep_documents (doc : Nat) (acc : HostState)
    (ol : Option DocumentDecorationLayer) :
    (clearLayersStep doc acc ol).documents = acc.documents := by
  cases ol with
  | none => rfl
  | some layer => exact foldl_clearStep_documents doc layer.type _ acc

theorem clearLayersStep_painted_nil (doc : Nat) (acc : HostState)
    (ol : Option DocumentDecorationLayer) (e t : Nat) (h : acc.painted e t = []) :
    (clearLayersStep doc acc ol).painted e t = [] := by
  cases ol with
  | none => exact h
  | some layer => exact foldl_clearStep_painted_nil doc layer.type _ acc e t h

theorem foldl_clearLayersStep_visibleTextEditors (doc : Nat)
    (ols : List (Option DocumentDecorationLayer)) (acc : HostState) :
    (ols.foldl (clearLayersStep doc) acc).visibleTextEditors =
      acc.visibleTextEditors := by
  induction ols generalizing acc with
  | nil => rfl
  | cons ol rest ih => rw [List.foldl_cons, ih, clearLayersStep_visibleTextEditors]

theorem foldl_clearLayersStep_documents (doc : Nat)
    (ols : List (Option DocumentDecorationLayer)) (acc : HostState) :
    (ols.foldl (clearLayersStep doc) acc).documents = acc.documents := by
  induction ols generalizing acc with
  | nil => rfl
  | cons ol rest ih => rw [List.foldl_cons, ih, clearLayersStep_documents]

theorem foldl_clearLayersStep_painted_nil (doc : Nat)
    (ols : List (Option DocumentDecorationLayer)) (acc : HostState) (e t : Nat)
    (h : acc.painted e t = []) :
    (ols.foldl (clearLayersStep doc) acc).painted e t = [] := by
  induction ols generalizing acc with
  | nil => exact h
  | cons ol rest ih => exact ih _ (clearLayersStep_painted_nil doc acc ol e t h)

theorem foldl_clearLayersStep_mem (doc : Nat)
    (ols : List (Option DocumentDecorationLayer)) (acc : HostState)
    (layer : DocumentDecorationLayer) (ed : Editor) (hmem : some layer ∈ ols)
    (hed : ed ∈ acc.visibleTextEditors) (hdoc : ed.document = doc) :
    (ols.foldl (clearLayersStep doc) acc).painted ed.id layer.type = [] := by
  induction ols generalizing acc with
  | nil => cases hmem
  | cons ol rest ih =>
    rcases List.mem_cons.mp hmem with heq | hmem'
    · rw [List.foldl_cons, ← heq]
      refine foldl_clearLayersStep_painted_nil doc rest _ ed.id layer.type ?_
      exact foldl_clearStep_mem doc layer.type acc.visibleTextEditors acc ed hed hdoc
    · refine ih _ hmem' ?_
      rw [clearLayersStep_visibleTextEditors]
      exact hed

theorem fromDocument_some (h : HostState) (doc : Nat) (m : DocumentDecorationManager)
    (hd : h.documents doc = some m) : h.fromDocument doc = (m, h) := by
  unfold fromDocument
  rw [hd]

theorem fromDocument_none (h : HostState) (doc : Nat) (hd : h.documents doc = none) :
    h.fromDocument doc =
      (DocumentDecorationManager.empty,
       { h with
         documents := fun d =>
           if d = doc then some DocumentDecorationManager.empty
           else h.documents d }) := by
  unfold fromDocument
  rw [hd]

theorem fromDocument_visibleTextEditors (h : HostState) (doc : Nat) :
    (h.fromDocument doc).2.visibleTextEditors = h.visibleTextEditors := by
  unfold fromDocument
  cases h.documents doc <;> rfl

end HostState

namespace DocumentDecoration

theorem setLine_linesAt_get (d : DocumentDecoration) (m : DocumentDecorationManager)
    (line : Nat) (msgs : List Message) (k : Nat) (h : k < msgs.length) :
    (d.setLine m line msgs).2.linesAt k line =
      msgs[k]?.map (mkDecorationOptions line k) := by
  unfold setLine
  dsimp only
  have := DocumentDecorationManager.linesAt_storeMessages_get
    (if d.flushed then m else m.flushLayers) line msgs 0 k h
  simpa using this

theorem setLine_frame_flushed (d : DocumentDecoration) (m : DocumentDecorationManager)
    (line : Nat) (msgs : List Message) (j n : Nat) (hd : d.flushed = true)
    (h : msgs.length ≤ j ∨ n ≠ line) :
    (d.setLine m line msgs).2.linesAt j n = m.linesAt j n := by
  unfold setLine
  dsimp only
  rw [hd, if_pos rfl]
  rcases h with h | h
  · exact DocumentDecorationManager.linesAt_storeMessages_high m line msgs 0 j n
      (Or.inr (by omega))
  · exact DocumentDecorationManager.linesAt_storeMessages_ne_line m line msgs 0 j n h

theorem setLine_stale_cleared (d : DocumentDecoration) (m : DocumentDecorationManager)
    (line : Nat) (msgs : List Message) (j n : Nat) (hd : d.flushed = false)
    (h : msgs.length ≤ j ∨ n ≠ line) :
    (d.setLine m line msgs).2.linesAt j n = none := by
  unfold setLine
  dsimp only
  rw [hd, if_neg (by simp)]
  rcases h with h | h
  · rw [DocumentDecorationManager.linesAt_storeMessages_high m.flushLayers line msgs 0 j n
      (Or.inr (by omega))]
    exact DocumentDecorationManager.linesAt_flushLayers m j n
  · rw [DocumentDecorationManager.linesAt_storeMessages_ne_line m.flushLayers line msgs 0 j n h]
    exact DocumentDecorationManager.linesAt_flushLayers m j n

theorem setUpdateMessage_linesAt_get (d : DocumentDecoration)
    (m : DocumentDecorationManager) (line : Nat) (p : PackageRelated)
    (msgs : List Message) (k : Nat) (hu : updateMessages p = some msgs)
    (hk : k < msgs.length) :
    (d.setUpdateMessage m line p).2.linesAt k line =
      msgs[k]?.map (mkDecorationOptions line k) := by
  unfold setUpdateMessage
  rw [hu]
  exact setLine_linesAt_get d m line msgs k hk

end DocumentDecoration

/-- A package whose registry lookup yields no latest version. -/
def pNoLatest : PackageRelated :=
  { versionLatest := none, versionInstalled := none, versionMaxed := false,
    versionLatestAlreadyInstalled := false, versionMajorUpdate := false }

/-- The `bar` scenario of the spec: not installed, latest version a major
pre-release update. -/
def pBar : PackageRelated :=
  { versionLatest := some "2.0.0-beta.1", versionInstalled := none,
    versionMaxed := false, versionLatestAlreadyInstalled := false,
    versionMajorUpdate := true }

/-- The `foo` scenario of the spec: no installed version and the declared
version is already the maximum available. -/
def pFoo : PackageRelated :=
  { versionLatest := some "1.0.0", versionInstalled := none, versionMaxed := true,
    versionLatestAlreadyInstalled := false, versionMajorUpdate := false }

/-- A dependency with an installed version and a major update available. -/
def pInst : PackageRelated :=
  { versionLatest := some "2.0.0", versionInstalled := some "1.0.0",
    versionMaxed := false, versionLatestAlreadyInstalled := false,
    versionMajorUpdate := true }

/-- The manager state after a fresh decoration instance showed the checking
icon on line 3. -/
def mStored : DocumentDecorationManager :=
  (DocumentDecoration.setCheckingMessage ⟨false⟩ DocumentDecorationManager.empty 3).2

/-- Claim C1 as stated is false on the code: with the checking icon already
stored for line 3 and a registry answer with no latest version,
`setUpdateMessage` does not clear the line — layer 0 still holds an entry for
line 3 after the call (the method returns before touching any layer). -/
theorem claim_C1_counterexample :
    (DocumentDecoration.setUpdateMessage ⟨true⟩ mStored 3 pNoLatest).2.linesAt 0 3 ≠
      none := by
  decide

/-- Claim C1, amended: when the registry reports no latest version,
`setUpdateMessage` returns early leaving the decoration instance and every
layer of the manager exactly as they were — it stores no decoration, but it
does not clear the line either. -/
theorem claim_C1_amended (d : DocumentDecoration) (m : DocumentDecorationManager)
    (line : Nat) (p : PackageRelated) (h : p.versionLatest = none) :
    d.setUpdateMessage m line p = (d, m) := by
  have hu : updateMessages p = none := by
    unfold updateMessages
    rw [h]
  unfold DocumentDecoration.setUpdateMessage
  rw [hu]

/-- Witness for the amended claim C1 at a concrete state. -/
theorem claim_C1_witness :
    DocumentDecoration.setUpdateMessage ⟨true⟩ mStored 3 pNoLatest = (⟨true⟩, mStored) :=
  claim_C1_amended ⟨true⟩ mStored 3 pNoLatest rfl

/-- Claim C2 as stated is false on the code: in the no-installed, major,
pre-release case the third qualifier is rendered as "<pre-release>" (angle
brackets), not "(pre-release)". -/
theorem claim_C2_counterexample :
    (((updateMessages pBar).getD []).drop 3).map Message.message ≠
      ["(install pending)", "(attention: major update!)", "(pre-release)"] := by
  decide

/-- Claim C2, amended: for a dependency with no installed version recorded,
not version-maxed, whose latest version is a major update and parses as a
pre-release, the qualifier messages appended after the version string are
exactly "(install pending)", "(attention: major update!)", "<pre-release>" in
that order. -/
theorem claim_C2_amended (p : PackageRelated) (v : String) (h1 : p.versionLatest = some v)
    (h2 : v ≠ "") (h3 : p.versionInstalled = none) (h4 : p.versionMaxed = false)
    (h5 : p.versionMajorUpdate = true) (h6 : semverPrerelease v = true) :
    (((updateMessages p).getD []).drop 3).map Message.message =
      ["(install pending)", "(attention: major update!)", "<pre-release>"] := by
  simp [updateMessages, updateQualifiers, h1, h2, h3, h4, h5, h6, strFalsy, l10nT]

/-- Witness for the amended claim C2 at the spec scenario `bar`. -/
theorem claim_C2_witness :
    (((updateMessages pBar).getD []).drop 3).map Message.message =
      ["(install pending)", "(attention: major update!)", "<pre-release>"] :=
  claim_C2_amended pBar "2.0.0-beta.1" rfl (by decide) rfl rfl rfl (by decide)

/-- Claim C3: for a dependency with a known latest version, no installed
version recorded, and a declared version already the maximum available,
`setUpdateMessage` passes exactly two messages to `setLine` — the pending icon
and the "Install pending" label — and stores them at slots 0 and 1 of the
line, with no version string and no qualifiers. -/
theorem claim_C3 (d : DocumentDecoration) (m : DocumentDecorationManager) (line : Nat)
    (p : PackageRelated) (v : String) (h1 : p.versionLatest = some v) (h2 : v ≠ "")
    (h3 : p.versionInstalled = none) (h4 : p.versionMaxed = true) :
    updateMessages p =
      some [{ message := Icons.PENDING
              styleDefault := some ThemeLight.ICON_AVAILABLE
              styleDark := some ThemeDark.ICON_AVAILABLE },
            { message := "Install pending" }] ∧
    (d.setUpdateMessage m line p).2.linesAt 0 line =
      some (mkDecorationOptions line 0
        { message := Icons.PENDING
          styleDefault := some ThemeLight.ICON_AVAILABLE
          styleDark := some ThemeDark.ICON_AVAILABLE }) ∧
    (d.setUpdateMessage m line p).2.linesAt 1 line =
      some (mkDecorationOptions line 1 { message := "Install pending" }) := by
  have hu : updateMessages p =
      some [{ message := Icons.PENDING
              styleDefault := some ThemeLight.ICON_AVAILABLE
              styleDark := some ThemeDark.ICON_AVAILABLE },
            { message := "Install pending" }] := by
    simp [updateMessages, h1, h2, h3, h4, strFalsy, l10nT]
  refine ⟨hu, ?_, ?_⟩
  · rw [DocumentDecoration.setUpdateMessage_linesAt_get d m line p _ 0 hu (by simp)]
    rfl
  · rw [DocumentDecoration.setUpdateMessage_linesAt_get d m line p _ 1 hu (by simp)]
    rfl

/-- Witness for claim C3 at the spec scenario `foo`. -/
theorem claim_C3_witness :
    updateMessages pFoo =
      some [{ message := Icons.PENDING
              styleDefault := some ThemeLight.ICON_AVAILABLE
              styleDark := some ThemeDark.ICON_AVAILABLE },
            { message := "Install pending" }] ∧
    (DocumentDecoration.setUpdateMessage ⟨true⟩ DocumentDecorationManager.empty 5 pFoo).2.linesAt 0 5 =
      some (mkDecorationOptions 5 0
        { message := Icons.PENDING
          styleDefault := some ThemeLight.ICON_AVAILABLE
          styleDark := some ThemeDark.ICON_AVAILABLE }) ∧
    (DocumentDecoration.setUpdateMessage ⟨true⟩ DocumentDecorationManager.empty 5 pFoo).2.linesAt 1 5 =
      some (mkDecorationOptions 5 1 { message := "Install pending" }) :=
  claim_C3 ⟨true⟩ DocumentDecorationManager.empty 5 pFoo "1.0.0" rfl (by decide) rfl rfl

/-- Claim C4: for a dependency with a known latest version that does not take
the pending-only branch, the message list starts with the updatable icon, the
installed-dependent label and the latest version string, and these land at
slots 0, 1 and 2 of the line. -/
theorem claim_C4 (d : DocumentDecoration) (m : DocumentDecorationManager) (line : Nat)
    (p : PackageRelated) (v : String) (h1 : p.versionLatest = some v) (h2 : v ≠ "")
    (h3 : (strFalsy p.versionInstalled && p.versionMaxed) = false) :
    updateMessages p =
      some ({ message := Icons.UPDATABLE
              styleDefault := some ThemeLight.ICON_UPDATABLE
              styleDark := some ThemeDark.ICON_UPDATABLE } ::
            { message :=
                if strFalsy p.versionInstalled then "Latest version:"
                else "Update available:"
              styleDefault := some ThemeLight.LABEL_UPDATABLE
              styleDark := some ThemeDark.LABEL_UPDATABLE } ::
            { message := v
              styleDefault := some ThemeLight.LABEL_VERSION
              styleDark := some ThemeDark.LABEL_VERSION } ::
            updateQualifiers p v) ∧
    (d.setUpdateMessage m line p).2.linesAt 0 line =
      some (mkDecorationOptions line 0
        { message := Icons.UPDATABLE
          styleDefault := some ThemeLight.ICON_UPDATABLE
          styleDark := some ThemeDark.ICON_UPDATABLE }) ∧
    (d.setUpdateMessage m line p).2.linesAt 1 line =
      some (mkDecorationOptions line 1
        { message :=
            if strFalsy p.versionInstalled then "Latest version:"
            else "Update available:"
          styleDefault := some ThemeLight.LABEL_UPDATABLE
          styleDark := some ThemeDark.LABEL_UPDATABLE }) ∧
    (d.setUpdateMessage m line p).2.linesAt 2 line =
      some (mkDecorationOptions line 2
        { message := v
          styleDefault := some ThemeLight.LABEL_VERSION
          styleDark := some ThemeDark.LABEL_VERSION }) := by
  have hu : updateMessages p =
      some ({ message := Icons.UPDATABLE
              styleDefault := some ThemeLight.ICON_UPDATABLE
              styleDark := some ThemeDark.ICON_UPDATABLE } ::
            { message :=
                if strFalsy p.versionInstalled then "Latest version:"
                else "Update available:"
              styleDefault := some ThemeLight.LABEL_UPDATABLE
              styleDark := some ThemeDark.LABEL_UPDATABLE } ::
            { message := v
              styleDefault := some ThemeLight.LABEL_VERSION
              styleDark := some ThemeDark.LABEL_VERSION } ::
            updateQualifiers p v) := by
    simp [updateMessages, h1, h2, h3, l10nT]
  refine ⟨hu, ?_, ?_, ?_⟩
  · rw [DocumentDecoration.setUpdateMessage_linesAt_get d m line p _ 0 hu (by simp)]
    simp
  · rw [DocumentDecoration.setUpdateMessage_linesAt_get d m line p _ 1 hu (by simp)]
    simp
  · rw [DocumentDecoration.setUpdateMessage_linesAt_get d m line p _ 2 hu (by simp)]
    simp

/-- Witness for claim C4: an installed dependency with a plain major update,
so the label is "Update available:" and the only qualifier is the
major-update warning. -/
theorem claim_C4_witness :
    updateMessages pInst =
      some [{ message := Icons.UPDATABLE
              styleDefault := some ThemeLight.ICON_UPDATABLE
              styleDark := some ThemeDark.ICON_UPDATABLE },
            { message := "Update available:"
              styleDefault := some ThemeLight.LABEL_UPDATABLE
              styleDark := some ThemeDark.LABEL_UPDATABLE },
            { message := "2.0.0"
              styleDefault := some ThemeLight.LABEL_VERSION
              styleDark := some ThemeDark.LABEL_VERSION },
            { message := "(attention: major update!)"
              styleDefault := some ThemeLight.LABEL_MAJOR
              styleDark := some ThemeDark.LABEL_MAJOR }] ∧
    (DocumentDecoration.setUpdateMessage ⟨true⟩ DocumentDecorationManager.empty 7 pInst).2.linesAt 2 7 =
      some (mkDecorationOptions 7 2
        { message := "2.0.0"
          styleDefault := some ThemeLight.LABEL_VERSION
          styleDark := some ThemeDark.LABEL_VERSION }) := by
  obtain ⟨h1, h2, h3, h4⟩ :=
    claim_C4 ⟨true⟩ DocumentDecorationManager.empty 7 pInst "2.0.0" rfl (by decide)
      (by decide)
  exact ⟨by rw [h1]; decide, h4⟩

/-- Claim C5: `setLine` sets the flushed flag; it stores the message at each
position `k` of the list into layer `k` keyed by the line; on the first call
(flushed still false) the prior flush leaves nothing outside the freshly
stored slots; and on later calls (flushed already true) no flush happens, so
entries of other lines are untouched. -/
theorem claim_C5 (d : DocumentDecoration) (m : DocumentDecorationManager) (line : Nat)
    (msgs : List Message) :
    (d.setLine m line msgs).1.flushed = true ∧
    (∀ k, k < msgs.length →
      (d.setLine m line msgs).2.linesAt k line =
        msgs[k]?.map (mkDecorationOptions line k)) ∧
    (d.flushed = false → ∀ j n, msgs.length ≤ j ∨ n ≠ line →
      (d.setLine m line msgs).2.linesAt j n = none) ∧
    (d.flushed = true → ∀ j n, n ≠ line →
      (d.setLine m line msgs).2.linesAt j n = m.linesAt j n) := by
  refine ⟨rfl, ?_, ?_, ?_⟩
  · exact fun k hk => DocumentDecoration.setLine_linesAt_get d m line msgs k hk
  · exact fun hd j n h => DocumentDecoration.setLine_stale_cleared d m line msgs j n hd h
  · exact fun hd j n h =>
      DocumentDecoration.setLine_frame_flushed d m line msgs j n hd (Or.inr h)

/-- Witness for claim C5: a first `setLine` on a fresh instance stores the
single message at slot 0 and leaves nothing anywhere else. -/
theorem claim_C5_witness :
    (DocumentDecoration.setLine ⟨false⟩ mStored 2 [{ message := "x" }]).1.flushed = true ∧
    (DocumentDecoration.setLine ⟨false⟩ mStored 2 [{ message := "x" }]).2.linesAt 0 2 =
      some (mkDecorationOptions 2 0 { message := "x" }) ∧
    (DocumentDecoration.setLine ⟨false⟩ mStored 2 [{ message := "x" }]).2.linesAt 0 3 =
      none := by
  refine ⟨(claim_C5 ⟨false⟩ mStored 2 [{ message := "x" }]).1, ?_, ?_⟩
  · have h := (claim_C5 ⟨false⟩ mStored 2 [{ message := "x" }]).2.1 0 (by decide)
    rw [h]
    rfl
  · exact (claim_C5 ⟨false⟩ mStored 2 [{ message := "x" }]).2.2.1 rfl 0 3 (Or.inr (by decide))

/-- Claim C6: `flushLayers` empties the line map of every existing layer while
preserving the set of layers and each layer's decoration-type handle: a
defined slot stays defined with the same type and an empty line map, and an
undefined slot stays undefined. -/
theorem claim_C6 (m : DocumentDecorationManager) (i : Nat) :
    (∀ l, m.layerAt i = some l →
      m.flushLayers.layerAt i = some { lines := fun _ => none, type := l.type }) ∧
    (m.layerAt i = none → m.flushLayers.layerAt i = none) := by
  constructor
  · intro l h
    rw [DocumentDecorationManager.layerAt_flushLayers, h]
    rfl
  · intro h
    rw [DocumentDecorationManager.layerAt_flushLayers, h]
    rfl

/-- Witness for claim C6: flushing the manager that holds the checking entry
on line 3 keeps layer 0 with its type but an empty line map, and slot 1 stays
undefined. -/
theorem claim_C6_witness :
    mStored.flushLayers.layerAt 0 = some { lines := fun _ => none, type := 0 } ∧
    mStored.flushLayers.layerAt 1 = none :=
  ⟨(claim_C6 mStored 0).1
    { lines := fun n =>
        if n = 3 then some (mkDecorationOptions 3 0 { message := Icons.CHECKING })
        else none
      type := 0 } rfl,
   (claim_C6 mStored 1).2 rfl⟩

/-- Claim C7: `clearLine` removes the entry keyed by the given line from every
layer and leaves every other line's entry in every layer unchanged. -/
theorem claim_C7 (d : DocumentDecoration) (m : DocumentDecorationManager) (line : Nat) :
    (∀ j, (d.clearLine m line).linesAt j line = none) ∧
    (∀ j n, n ≠ line → (d.clearLine m line).linesAt j n = m.linesAt j n) := by
  constructor
  · intro j
    rw [show d.clearLine m line = m.clearLine line from rfl,
      DocumentDecorationManager.linesAt_clearLine]
    simp
  · intro j n h
    rw [show d.clearLine m line = m.clearLine line from rfl,
      DocumentDecorationManager.linesAt_clearLine]
    simp [h]

/-- Witness for claim C7: clearing line 3 removes the checking entry and keeps
line 4 as it was. -/
theorem claim_C7_witness :
    (DocumentDecoration.clearLine ⟨true⟩ mStored 3).linesAt 0 3 = none ∧
    (DocumentDecoration.clearLine ⟨true⟩ mStored 3).linesAt 0 4 = mStored.linesAt 0 4 :=
  ⟨(claim_C7 ⟨true⟩ mStored 3).1 0, (claim_C7 ⟨true⟩ mStored 3).2 0 4 (by decide)⟩

/-- Claim C8: `flushDocument` clears, for every layer of the document's
manager and every visible editor showing the document, that layer's painted
decorations in that editor; it removes the document's entry from the state
table; and a subsequent `fromDocument` yields a fresh manager with an empty
layer list. -/
theorem claim_C8 (h : HostState) (doc : Nat) :
    (∀ ed, ed ∈ h.visibleTextEditors → ed.document = doc →
      ∀ i layer, (h.fromDocument doc).1.layerAt i = some layer →
        (h.flushDocument doc).painted ed.id layer.type = []) ∧
    (h.flushDocument doc).documents doc = none ∧
    ((h.flushDocument doc).fromDocument doc).1 = DocumentDecorationManager.empty := by
  have hdocs : (h.flushDocument doc).documents doc = none := by
    show (if doc = doc then none
      else ((h.fromDocument doc).1.layers.foldl (HostState.clearLayersStep doc)
        (h.fromDocument doc).2).documents doc) = none
    simp
  refine ⟨?_, hdocs, ?_⟩
  · intro ed hed hdoc i layer hlayer
    show ((h.fromDocument doc).1.layers.foldl (HostState.clearLayersStep doc)
      (h.fromDocument doc).2).painted ed.id layer.type = []
    refine HostState.foldl_clearLayersStep_mem doc _ _ layer ed
      (getIdx_mem _ i layer hlayer) ?_ hdoc
    rw [HostState.fromDocument_visibleTextEditors]
    exact hed
  · rw [HostState.fromDocument_none _ doc hdocs]

/-- A host with one visible editor (id 10) showing document 1, whose manager
holds the checking entry, and stale paint everywhere. -/
def h0 : HostState :=
  { documents := fun d => if d = 1 then some mStored else none
    visibleTextEditors := [{ id := 10, document := 1 }]
    painted := fun _ _ => [mkDecorationOptions 3 0 { message := Icons.CHECKING }] }

/-- Witness for claim C8 at the concrete host state `h0`. -/
theorem claim_C8_witness :
    (h0.flushDocument 1).painted 10 0 = [] ∧
    (h0.flushDocument 1).documents 1 = none ∧
    ((h0.flushDocument 1).fromDocument 1).1 = DocumentDecorationManager.empty := by
  refine ⟨?_, (claim_C8 h0 1).2.1, (claim_C8 h0 1).2.2⟩
  exact (claim_C8 h0 1).1 { id := 10, document := 1 } (by decide) rfl 0
    { lines := fun n =>
        if n = 3 then some (mkDecorationOptions 3 0 { message := Icons.CHECKING })
        else none
      type := 0 } rfl

/-- Claim C9: `getLayer i` returns the layer now stored at slot `i`; when the
slot was filled it returns that layer and changes nothing; when it was empty
it returns a fresh empty layer with a fresh handle; it never touches any
other slot; and it is idempotent. -/
theorem claim_C9 (m : DocumentDecorationManager) (i : Nat) :
    (m.getLayer i).2.layerAt i = some (m.getLayer i).1 ∧
    (∀ l0, m.layerAt i = some l0 → m.getLayer i = (l0, m)) ∧
    (m.layerAt i = none →
      (m.getLayer i).1 = { lines := fun _ => none, type := m.nextType }) ∧
    (∀ j, j ≠ i → (m.getLayer i).2.layerAt j = m.layerAt j) ∧
    (m.getLayer i).2.getLayer i = ((m.getLayer i).1, (m.getLayer i).2) := by
  refine ⟨DocumentDecorationManager.getLayer_layerAt_self m i,
    fun l0 h => DocumentDecorationManager.getLayer_known m i l0 h,
    fun h => by rw [DocumentDecorationManager.getLayer_fresh m i h],
    fun j hj => DocumentDecorationManager.getLayer_layerAt_ne m i j hj,
    DocumentDecorationManager.getLayer_known _ i _
      (DocumentDecorationManager.getLayer_layerAt_self m i)⟩

/-- Witness for claim C9: asking for slot 2 of the empty manager creates a
fresh layer there with handle 0 and leaves slot 1 untouched. -/
theorem claim_C9_witness :
    (DocumentDecorationManager.empty.getLayer 2).2.layerAt 2 =
      some (DocumentDecorationManager.empty.getLayer 2).1 ∧
    (DocumentDecorationManager.empty.getLayer 2).1 =
      { lines := fun _ => none, type := 0 } ∧
    (DocumentDecorationManager.empty.getLayer 2).2.layerAt 1 =
      DocumentDecorationManager.empty.layerAt 1 :=
  ⟨(claim_C9 DocumentDecorationManager.empty 2).1,
   (claim_C9 DocumentDecorationManager.empty 2).2.2.1 rfl,
   (claim_C9 DocumentDecorationManager.empty 2).2.2.2.1 1 (by decide)⟩

/-- Claim C10: once the flushed flag is set, a later `setLine` with a shorter
message list leaves every layer at an index at or beyond the list length
unchanged at that line — stale higher-slot fragments survive. -/
theorem claim_C10 (d : DocumentDecoration) (m : DocumentDecorationManager) (line : Nat)
    (msgs : List Message) (hd : d.flushed = true) (j : Nat) (hj : msgs.length ≤ j) :
    (d.setLine m line msgs).2.linesAt j line = m.linesAt j line :=
  DocumentDecoration.setLine_frame_flushed d m line msgs j line hd (Or.inl hj)

/-- Witness for claim C10: a second `setLine` with an empty message list keeps
the slot-0 entry of line 3. -/
theorem claim_C10_witness :
    (DocumentDecoration.setLine ⟨true⟩ mStored 3 []).2.linesAt 0 3 = mStored.linesAt 0 3 :=
  claim_C10 ⟨true⟩ mStored 3 [] rfl 0 (by decide)
